import Mathlib

/-!
Verification of the multi-repository service-intelligence core.

Shallow embedding of the Python sources:
  * `api/intelligence/repository_state_manager.py` (state machine,
    enrichment completion marking)
  * `api/intelligence/service_manager.py` (service creation, repository
    assignment, standard and progressive analysis, protocol extraction,
    repo-key normalization)

Python strings are modelled as Lean `String` (equivalently `List Char`
via `.data`); JSON dictionaries for the `repositories` field are
modelled as association lists with in-place replacement on update,
mirroring `dict.__setitem__`.  Fields a JSON document may omit are
`Option`-typed.  External calls (the BAML analysis capability, the
filesystem) are modelled as explicit inputs; a raised exception from an
external call is an `Except.error` value.
-/

namespace AristOps

/-! ## Python string primitives -/

/-- Python `\s` whitespace characters (ASCII range, as used by `re` and
`str.strip` on the inputs of interest). -/
def isPySpace (c : Char) : Bool :=
  c = ' ' || c = '\t' || c = '\n' || c = '\r' || c = '\x0b' || c = '\x0c'

/-- `startsWithL l p` : does the char list `l` start with `p`?
Models Python prefix tests / glob anchoring. -/
def startsWithL : List Char → List Char → Bool
  | _, [] => true
  | [], _ :: _ => false
  | c :: l, p :: ps => c = p && startsWithL l ps

/-- `endsWithL l s` : does the char list `l` end with `s`? -/
def endsWithL (l s : List Char) : Bool :=
  startsWithL l.reverse s.reverse

/-- Python `str.rstrip(chars)` : remove all trailing characters that are
members of `chars` (a character *set*, not a suffix). -/
def pyRstrip (s : String) (chars : List Char) : String :=
  String.mk ((s.data.reverse.dropWhile (fun c => decide (c ∈ chars))).reverse)

/-- Python `str.strip()` : remove leading and trailing whitespace. -/
def pyStrip (s : String) : String :=
  String.mk (((s.data.dropWhile isPySpace).reverse.dropWhile isPySpace).reverse)

/-- Python `pat in s` substring test (over char lists). -/
def hasSubL : List Char → List Char → Bool
  | [], pat => pat.isEmpty
  | c :: rest, pat => startsWithL (c :: rest) pat || hasSubL rest pat

/-- Python `pat in s` substring test on strings. -/
def pyContains (s pat : String) : Bool :=
  hasSubL s.data pat.data

/-- Python `str.lower()` (ASCII case mapping suffices for the inputs of
interest). -/
def pyLower (s : String) : String :=
  String.mk (s.data.map Char.toLower)

/-- Python `s.replace(".git", "")` : delete every (non-overlapping,
left-to-right) occurrence of the four-character substring `.git`. -/
def stripDotGitAll : List Char → List Char
  | '.' :: 'g' :: 'i' :: 't' :: rest => stripDotGitAll rest
  | c :: rest => c :: stripDotGitAll rest
  | [] => []

/-! ## Data model (service JSON documents) -/

/-- `tech_stack` object of a repository entry.  The progressive failure
path writes only three of the fields, so the list-valued ones default to
`[]` exactly as a JSON reader with defaults would. -/
structure TechStack where
  primary_stack : String
  secondary_stacks : List String := []
  frameworks : List String := []
  evidence_files : List String := []
  confidence : String
  reasoning : String
deriving DecidableEq

/-- One element of `communication_protocols`. -/
structure ProtocolEntry where
  protocol_type : String
  endpoints : List String := []
  configuration_details : String
  evidence_files : List String := []
deriving DecidableEq

/-- A repository entry inside a service document.  Fields that some
writer omits are `Option`-typed (`none` = key absent from the JSON). -/
structure RepoEntry where
  url : String
  local_path : Option String := none
  role : Option String := none
  tech_stack : Option TechStack := none
  communication_protocols : List ProtocolEntry := []
  deployment_patterns : List String := []
  confidence : Option String := none
  reasoning : Option String := none
  analysis_timestamp : Option String := none
  enriched : Option Bool := none
  enrichment_completed_at : Option String := none
  baml_error : Option String := none
  analysis_type : Option String := none
  total_batches_processed : Option Nat := none
  repository_type : Option String := none
  analysis_strategy : Option String := none
  error : Option String := none
deriving DecidableEq

/-- The `repositories` JSON object: an association list with unique
keys; `dict.__setitem__` replaces in place or appends. -/
abbrev RepoDict := List (String × RepoEntry)

/-- `k in d` for the repositories dict. -/
def hasKey (d : RepoDict) (k : String) : Bool :=
  d.any (fun p => p.1 = k)

/-- `d.get(k)` for the repositories dict. -/
def lookupKey (d : RepoDict) (k : String) : Option RepoEntry :=
  (d.find? (fun p => p.1 = k)).map (fun p => p.2)

/-- `d[k] = v` for the repositories dict. -/
def setKey (d : RepoDict) (k : String) (v : RepoEntry) : RepoDict :=
  if hasKey d k then d.map (fun p => if p.1 = k then (k, v) else p)
  else d ++ [(k, v)]

/-- `len(d)` for the repositories dict (keys are unique). -/
def dictLen (d : RepoDict) : Nat := d.length

/-- A persisted service document. -/
structure ServiceDoc where
  id : String
  name : String
  description : String
  owner : String
  created_at : String
  last_updated : String
  repositories : RepoDict
  repository_count : Nat
deriving DecidableEq

/-! ## Repository state manager
(`api/intelligence/repository_state_manager.py`) -/

/-- `RepositoryState` enum. -/
inductive RepositoryState
  | NEEDS_ASSIGNMENT
  | NEEDS_ENRICHMENT
  | READY_FOR_CHAT
  | CORRUPTED
deriving DecidableEq

/-- Result of opening and JSON-decoding one service file: decoding a
malformed file raises (modelled as `malformed`). -/
inductive ServiceRead
  | malformed
  | ok (doc : ServiceDoc)
deriving DecidableEq

/-- Filesystem snapshot seen by the state manager: the services
directory as a list of (filename, content) pairs in iteration order, and
the size of the search-index (FAISS) artifact at the path derived for
the queried repository (`none` = file absent). -/
structure StateFS where
  servicesDir : List (String × ServiceRead)
  faissSize : Option Nat
deriving DecidableEq

/-- `_find_service_file`: first file in the services directory matching
the glob `{service_name}-*.json`; `None` when the directory is missing
or nothing matches (all exceptions are caught inside and yield `None`). -/
def find_service_file (fs : StateFS) (service_name : String) : Option ServiceRead :=
  (fs.servicesDir.find? (fun p =>
    startsWithL p.1.data (service_name.data ++ ['-']) &&
    endsWithL p.1.data ".json".data)).map (fun p => p.2)

/-- `_check_service_assignment` (phase 1).  A raised JSON/read error is
caught and mapped to `CORRUPTED`. -/
def check_service_assignment (fs : StateFS) (repo_url service_name : String) :
    RepositoryState :=
  match find_service_file fs service_name with
  | none => RepositoryState.NEEDS_ASSIGNMENT
  | some ServiceRead.malformed => RepositoryState.CORRUPTED
  | some (ServiceRead.ok doc) =>
      if hasKey doc.repositories repo_url then RepositoryState.READY_FOR_CHAT
      else RepositoryState.NEEDS_ASSIGNMENT

/-- Truthiness of `repo_entry.get('enriched', False)`. -/
def enrichedTruthy (e : RepoEntry) : Bool :=
  e.enriched = some true

/-- Truthiness of `repo_entry.get('analysis_timestamp')` (absent key and
empty string are both falsy). -/
def timestampTruthy (e : RepoEntry) : Bool :=
  match e.analysis_timestamp with
  | none => false
  | some ts => !(ts = "")

/-- `_check_enrichment_completion` (phase 2). -/
def check_enrichment_completion (fs : StateFS) (repo_url service_name : String) :
    RepositoryState :=
  match find_service_file fs service_name with
  | none => RepositoryState.NEEDS_ASSIGNMENT
  | some ServiceRead.malformed => RepositoryState.CORRUPTED
  | some (ServiceRead.ok doc) =>
      match lookupKey doc.repositories repo_url with
      | none => RepositoryState.NEEDS_ENRICHMENT
      | some e =>
          if !enrichedTruthy e then RepositoryState.NEEDS_ENRICHMENT
          else if !timestampTruthy e then RepositoryState.NEEDS_ENRICHMENT
          else RepositoryState.READY_FOR_CHAT

/-- `_validate_data_integrity` (phase 3): FAISS artifact must exist and
be at least 1024 bytes. -/
def validate_data_integrity (fs : StateFS) : RepositoryState :=
  match fs.faissSize with
  | none => RepositoryState.NEEDS_ENRICHMENT
  | some size => if size < 1024 then RepositoryState.CORRUPTED
                 else RepositoryState.READY_FOR_CHAT

/-- `get_repository_state`: three sequenced phases, each internally
caught; the whole body additionally sits in a `try/except` mapping any
escaped exception to `CORRUPTED` (in this total model no exception can
escape the phases, so the top-level handler is the identity on the
result). -/
def get_repository_state (fs : StateFS) (repo_url service_name : String) :
    RepositoryState :=
  let assignment_state := check_service_assignment fs repo_url service_name
  if assignment_state ≠ RepositoryState.READY_FOR_CHAT then assignment_state
  else
    let enrichment_state := check_enrichment_completion fs repo_url service_name
    if enrichment_state ≠ RepositoryState.READY_FOR_CHAT then enrichment_state
    else validate_data_integrity fs

/-- `mark_enrichment_complete`: sets `enriched = True` and
`enrichment_completed_at` on the matching entry and rewrites the file;
returns `False` (writing nothing) when the service file or the entry is
missing, or when reading raises. -/
def mark_enrichment_complete (fs : StateFS) (repo_url service_name nowIso : String) :
    Bool × Option ServiceDoc :=
  match find_service_file fs service_name with
  | none => (false, none)
  | some ServiceRead.malformed => (false, none)
  | some (ServiceRead.ok doc) =>
      match lookupKey doc.repositories repo_url with
      | some e =>
          let e2 := { e with enriched := some true,
                             enrichment_completed_at := some nowIso }
          (true, some { doc with repositories := setKey doc.repositories repo_url e2 })
      | none => (false, none)

/-! ## Service manager (`api/intelligence/service_manager.py`) -/

/-- `_get_repo_key`: `repo_url.rstrip('/').rstrip('.git')`.  Note that
Python `rstrip` takes a character *set*: the second call removes all
trailing characters drawn from `.`, `g`, `i`, `t`. -/
def get_repo_key (repo_url : String) : String :=
  pyRstrip (pyRstrip repo_url ['/']) ['.', 'g', 'i', 't']

/-- Modelled from the spec: the glossary's canonical repository key —
"a normalized form of a repository URL (trailing slash and `.git`
suffix removed)", i.e. drop one trailing slash if present, then drop a
trailing `.git` suffix if present, and change nothing else.  Stated for
comparison with `get_repo_key` / `normalize_for_find`, which the source
actually computes. -/
def specRepoKey (url : String) : String :=
  let s1 := if endsWithL url.data ['/'] then String.mk url.data.dropLast else url
  if endsWithL s1.data ".git".data then String.mk (s1.data.take (s1.data.length - 4))
  else s1

/-- URL normalization used by `find_service_by_repo_url`:
`url.rstrip('/').replace('.git', '')` — removes trailing slashes and
deletes *every* occurrence of the substring `.git`. -/
def normalize_for_find (url : String) : String :=
  String.mk (stripDotGitAll (pyRstrip url ['/']).data)

/-- `find_service_by_repo_url`: scan every service file, compare the
normalized stored URL of each entry with the normalized query; skip
unreadable files; inject the service id (file stem) into the hit. -/
def find_service_by_repo_url (dir : List (String × ServiceRead)) (repo_url : String) :
    Option (String × ServiceDoc) :=
  let normalized := normalize_for_find repo_url
  dir.findSome? (fun p =>
    match p.2 with
    | ServiceRead.malformed => none
    | ServiceRead.ok doc =>
        if doc.repositories.any (fun q => normalize_for_find q.2.url = normalized)
        then some (p.1, doc) else none)

/-- Decimal-rendering worker (digits are emitted least-significant
first into the accumulator; the fuel argument only bounds recursion
depth). -/
def natToDecCore : Nat → Nat → List Char → List Char
  | 0, _, acc => acc
  | fuel+1, n, acc =>
      if n < 10 then Nat.digitChar n :: acc
      else natToDecCore fuel (n / 10) (Nat.digitChar (n % 10) :: acc)

/-- Decimal rendering of a natural number, as Python `str(int)` /
f-string formatting produces it. -/
def natToDec (n : Nat) : List Char := natToDecCore (n+1) n []

/-- String form of `natToDec`. -/
def natStr (n : Nat) : String := String.mk (natToDec n)

/-- Value of a decimal digit character emitted by `natToDec`. -/
def decDigit (c : Char) : Nat := c.toNat - 48

/-- Numeric value of a decimal character list. -/
def decVal (l : List Char) : Nat := l.foldl (fun a c => 10 * a + decDigit c) 0

/-- Run-collapse of `re.sub(r'\s+', '-', s)`: every maximal whitespace
run becomes a single hyphen (the flag records whether the previous
character was whitespace). -/
def collapseWs : Bool → List Char → List Char
  | _, [] => []
  | prevSp, c :: rest =>
      if isPySpace c then
        if prevSp then collapseWs true rest else '-' :: collapseWs true rest
      else c :: collapseWs false rest

/-- Slug part of `_generate_service_id`:
`re.sub` removal of characters outside `[a-zA-Z0-9\s-]` from the
lowercased name, then `.strip()`, then whitespace-run collapse. -/
def slugify (name : String) : String :=
  let lowered := (pyLower name).data
  let filtered := lowered.filter (fun c => c.isAlpha || c.isDigit || isPySpace c || c = '-')
  let stripped := ((filtered.dropWhile isPySpace).reverse.dropWhile isPySpace).reverse
  String.mk (collapseWs false stripped)

/-- `_generate_service_id`: slug of the name plus `-` plus the integer
timestamp `int(time.time())`. -/
def generate_service_id (name : String) (nowUnix : Nat) : String :=
  slugify name ++ "-" ++ natStr nowUnix

/-- `_service_exists`: does `{service_id}.json` exist in the services
directory (given as a list of filenames)? -/
def service_exists (files : List String) (service_id : String) : Bool :=
  files.contains (service_id ++ ".json")

/-- `create_service`: validate the name, generate the id, fail on an id
collision, otherwise build and persist the fresh document. -/
def create_service (files : List String) (name description owner : String)
    (nowUnix : Nat) (nowIso : String) : Except String (String × ServiceDoc) :=
  if pyStrip name = "" then Except.error "Service name cannot be empty"
  else if service_exists files (generate_service_id name nowUnix) then
    Except.error ("Service with name already exists")
  else Except.ok (generate_service_id name nowUnix,
    { id := generate_service_id name nowUnix, name := pyStrip name,
      description := pyStrip description,
      owner := pyStrip owner, created_at := nowIso, last_updated := nowIso,
      repositories := [], repository_count := 0 })

/-- Structured result of the external `AnalyzeRepository` capability. -/
structure BamlResponse where
  role : String
  tech_stack : TechStack
  communication_protocols : List ProtocolEntry
  deployment_patterns : List String
  confidence : String
  reasoning : String
deriving DecidableEq

/-- One planned batch of a progressive run together with the outcome of
processing it: `skipped` (its collected content was empty), `analyzed`
(the external batch call returned text), or `raised` (the external batch
call raised). -/
inductive BatchStep
  | skipped (category : String)
  | analyzed (category description result : String)
  | raised (category msg : String)
deriving DecidableEq

/-- Result of the external `PrioritizeRepositoryFiles` capability. -/
structure FilePlan where
  priority_batches : List BatchStep
  repository_type : String
  analysis_strategy : String
deriving DecidableEq

/-- External-world inputs of one `assign_repo_to_service` call:
resolved local repository path (`none` when `_get_repo_path` fails or
the path does not exist), the strategy decision after its internal
fallback to `"standard"`, the standard-analysis outcome (`error` = the
`AnalyzeRepository` call raised; `ok none` = falsy response), the
progressive plan outcome, and the wall-clock ISO timestamp. -/
structure AssignEnv where
  repo_path : Option String
  strategy : String
  analyze : Except String (Option BamlResponse)
  plan : Except String FilePlan
  nowIso : String

/-- The fully-analyzed entry the standard path stores on success. -/
def stdOkEntry (repo_url p : String) (resp : BamlResponse) (nowIso : String) : RepoEntry :=
  { url := repo_url, local_path := some p, role := some resp.role,
    tech_stack := some resp.tech_stack,
    communication_protocols := resp.communication_protocols,
    deployment_patterns := resp.deployment_patterns,
    confidence := some resp.confidence, reasoning := some resp.reasoning,
    analysis_timestamp := some nowIso, enriched := some true }

/-- The degraded fallback entry the standard path stores when the
`AnalyzeRepository` call raises. -/
def stdFailEntry (repo_url p msg nowIso : String) : RepoEntry :=
  { url := repo_url, local_path := some p, role := some "UNKNOWN",
    tech_stack := some { primary_stack := "UNKNOWN",
                         confidence := "low",
                         reasoning := "BAML analysis failed: " ++ msg },
    communication_protocols := [], deployment_patterns := [],
    confidence := some "low",
    reasoning := some ("BAML analysis failed: " ++ msg),
    analysis_timestamp := some nowIso, enriched := some false,
    baml_error := some msg }

/-- `_analyze_repository_with_baml`.  Returns the Python boolean result
together with the document written to disk (`none` = nothing written). -/
def analyze_repository_with_baml (env : AssignEnv) (repo_url : String)
    (doc : ServiceDoc) : Bool × Option ServiceDoc :=
  match env.repo_path with
  | none => (false, none)
  | some p =>
    match env.analyze with
    | Except.ok (some resp) =>
        let repos := setKey doc.repositories repo_url (stdOkEntry repo_url p resp env.nowIso)
        (true, some { doc with repositories := repos,
                               repository_count := dictLen repos,
                               last_updated := env.nowIso })
    | Except.ok none => (false, none)
    | Except.error msg =>
        let repos := setKey doc.repositories repo_url (stdFailEntry repo_url p msg env.nowIso)
        (false, some { doc with repositories := repos,
                                repository_count := dictLen repos,
                                last_updated := env.nowIso })

/-- Separator prepended to each batch result in the accumulated
context. -/
def ctxSep (category : String) : List Char :=
  ("\n\n--- " ++ category ++ " Analysis ---\n").data

/-- The overflow trim: when the accumulated context exceeds 10000
characters keep only the most recent 8000 (`accumulated_context[-8000:]`). -/
def ctxTrim (c : List Char) : List Char :=
  if 10000 < c.length then c.drop (c.length - 8000) else c

/-- One context-accumulation step of the progressive loop. -/
def ctxStep (ctx : List Char) (category result : String) : List Char :=
  ctxTrim (ctx ++ ctxSep category ++ result.data)

/-- The progressive batch loop: builds `batch_results` (category,
analysis text) in order, threading the accumulated context; a raising
batch call aborts the loop with the exception. -/
def runBatches : List Char → List BatchStep → Except String (List (String × String))
  | _, [] => Except.ok []
  | ctx, BatchStep.skipped _ :: rest => runBatches ctx rest
  | ctx, BatchStep.analyzed cat _ res :: rest =>
      (runBatches (ctxStep ctx cat res) rest).map (fun l => (cat, res) :: l)
  | _, BatchStep.raised _ msg :: _ => Except.error msg

/-- Trace of the accumulated-context value at the end of each completed
iteration of the progressive loop. -/
def runContexts : List Char → List BatchStep → List (List Char)
  | _, [] => []
  | ctx, BatchStep.skipped _ :: rest => ctx :: runContexts ctx rest
  | ctx, BatchStep.analyzed cat _ res :: rest =>
      ctxStep ctx cat res :: runContexts (ctxStep ctx cat res) rest
  | _, BatchStep.raised _ _ :: _ => []

/-- Role inferred from the detected repository type (`role_mapping` with
default `LIBRARY`). -/
def role_mapping (t : String) : String :=
  if t = "PYTHON" then "BACKEND_SERVICE"
  else if t = "NODEJS_JAVASCRIPT" then "FRONTEND_APP"
  else if t = "GO" then "MICROSERVICE"
  else if t = "JAVA_MAVEN" then "BACKEND_SERVICE"
  else "LIBRARY"

/-- Protocol entries contributed by one batch result in
`_extract_protocols_from_batches` (keyword containment over the
lowercased analysis text, in source order). -/
def protocolsFromBatch (b : String × String) : List ProtocolEntry :=
  let analysis := pyLower b.2
  (if pyContains analysis "http" || pyContains analysis "rest" || pyContains analysis "api"
   then [{ protocol_type := "HTTP/HTTPS",
           configuration_details := "Detected in " ++ b.1 ++ " analysis" }] else []) ++
  (if pyContains analysis "websocket"
   then [{ protocol_type := "WebSocket",
           configuration_details := "Detected in " ++ b.1 ++ " analysis" }] else []) ++
  (if pyContains analysis "grpc"
   then [{ protocol_type := "gRPC",
           configuration_details := "Detected in " ++ b.1 ++ " analysis" }] else [])

/-- All protocol candidates over all batch results, before
deduplication. -/
def rawProtocols (brs : List (String × String)) : List ProtocolEntry :=
  (brs.map protocolsFromBatch).flatten

/-- The dedup loop of `_extract_protocols_from_batches`: keep an entry
only when its `protocol_type` has not been seen yet. -/
def dedupByType : List ProtocolEntry → List String → List ProtocolEntry
  | [], _ => []
  | p :: rest, seen =>
      if p.protocol_type ∈ seen then dedupByType rest seen
      else p :: dedupByType rest (p.protocol_type :: seen)

/-- `_extract_protocols_from_batches`. -/
def extract_protocols_from_batches (brs : List (String × String)) : List ProtocolEntry :=
  dedupByType (rawProtocols brs) []

/-- Texts of batch results mentioning deployment keywords
(`deployment_hints` in `_synthesize_progressive_analysis`). -/
def deploymentHints (brs : List (String × String)) : List String :=
  (brs.filter (fun b => pyContains (pyLower b.2) "deploy" ||
                        pyContains (pyLower b.2) "docker")).map (fun b => b.2)

/-- The entry stored by the progressive success path: the explicit keys
of the store statement merged with `_synthesize_progressive_analysis`.
No `enriched`, `analysis_timestamp`, or `local_path` key is written. -/
def synthesizeEntry (repo_url : String) (plan : FilePlan)
    (brs : List (String × String)) : RepoEntry :=
  { url := repo_url,
    analysis_type := some "progressive_baml",
    total_batches_processed := some brs.length,
    repository_type := some plan.repository_type,
    analysis_strategy := some plan.analysis_strategy,
    role := some (role_mapping plan.repository_type),
    tech_stack := some { primary_stack := plan.repository_type,
                         confidence := "medium",
                         reasoning := "Progressive analysis of " ++ natStr brs.length ++
                                      " batches using " ++ plan.analysis_strategy },
    communication_protocols := extract_protocols_from_batches brs,
    deployment_patterns := deploymentHints brs,
    confidence := some "medium",
    reasoning := some ("Synthesized from progressive analysis of " ++
                       natStr brs.length ++ " file batches") }

/-- The minimal failure entry the progressive exception handler stores. -/
def progFailEntry (repo_url msg : String) : RepoEntry :=
  { url := repo_url,
    analysis_type := some "progressive_baml_failed",
    error := some msg,
    role := some "UNKNOWN",
    tech_stack := some { primary_stack := "UNKNOWN", confidence := "low",
                         reasoning := "Progressive analysis failed: " ++ msg },
    communication_protocols := [], deployment_patterns := [] }

/-- `_analyze_large_repository_with_progressive_baml`.  Both the success
store and the failure store key the entry by `_get_repo_key(repo_url)`
and update neither `repository_count` nor `last_updated`. -/
def analyze_large_repository_with_progressive_baml (env : AssignEnv)
    (repo_url : String) (doc : ServiceDoc) : Bool × Option ServiceDoc :=
  match env.repo_path with
  | none => (false, none)
  | some _ =>
    match env.plan with
    | Except.error msg =>
        let repos := setKey doc.repositories (get_repo_key repo_url) (progFailEntry repo_url msg)
        (false, some { doc with repositories := repos })
    | Except.ok plan =>
      match runBatches [] plan.priority_batches with
      | Except.error msg =>
          let repos := setKey doc.repositories (get_repo_key repo_url) (progFailEntry repo_url msg)
          (false, some { doc with repositories := repos })
      | Except.ok brs =>
          let repos := setKey doc.repositories (get_repo_key repo_url) (synthesizeEntry repo_url plan brs)
          (true, some { doc with repositories := repos })

/-- `assign_repo_to_service`.  Returns the Python boolean together with
the service document written during the call (`none` = the service file
was not rewritten).  Empty inputs, a missing service file, or a raised
JSON decode error all yield `False`; an already-present `repo_url` key
short-circuits to `True` with no write; otherwise the call dispatches on
the strategy and returns `True` whether or not analysis succeeded. -/
def assign_repo_to_service (env : AssignEnv) (service_id repo_url : String)
    (service : Option ServiceRead) : Bool × Option ServiceDoc :=
  if service_id = "" || repo_url = "" then (false, none)
  else match service with
  | none => (false, none)
  | some ServiceRead.malformed => (false, none)
  | some (ServiceRead.ok doc) =>
      if hasKey doc.repositories repo_url then (true, none)
      else
        let r := if env.strategy = "progressive"
                 then analyze_large_repository_with_progressive_baml env repo_url doc
                 else analyze_repository_with_baml env repo_url doc
        (true, r.2)

/-! ## Supporting lemmas -/

theorem decDigit_digitChar : ∀ d, d < 10 → decDigit (Nat.digitChar d) = d := by decide

theorem foldl_natToDecCore : ∀ fuel n acc a, n < 10 ^ (fuel+1) →
    ∃ k, List.foldl (fun a c => 10 * a + decDigit c) a (natToDecCore (fuel+1) n acc) =
      List.foldl (fun a c => 10 * a + decDigit c) (a * 10 ^ k + n) acc := by
  intro fuel
  induction fuel with
  | zero =>
      intro n acc a hn
      have hn' : n < 10 := by simpa using hn
      refine ⟨1, ?_⟩
      simp only [natToDecCore, if_pos hn', List.foldl, decDigit_digitChar n hn']
      congr 1
      ring
  | succ f ih =>
      intro n acc a hn
      by_cases h10 : n < 10
      · refine ⟨1, ?_⟩
        simp only [natToDecCore, if_pos h10, List.foldl, decDigit_digitChar n h10]
        congr 1
        ring
      · have hdiv : n / 10 < 10 ^ (f+1) := by
          apply (Nat.div_lt_iff_lt_mul (by norm_num : 0 < 10)).mpr
          calc n < 10 ^ (f+1+1) := hn
          _ = 10 ^ (f+1) * 10 := by ring
        obtain ⟨k, hk⟩ := ih (n / 10) (Nat.digitChar (n % 10) :: acc) a hdiv
        refine ⟨k+1, ?_⟩
        have hcore : natToDecCore (f+1+1) n acc
            = natToDecCore (f+1) (n / 10) (Nat.digitChar (n % 10) :: acc) := by
          simp [natToDecCore, h10]
        rw [hcore, hk]
        simp only [List.foldl]
        congr 1
        have hmod : decDigit (Nat.digitChar (n % 10)) = n % 10 :=
          decDigit_digitChar _ (Nat.mod_lt _ (by norm_num))
        rw [hmod]
        have hdm : 10 * (n / 10) + n % 10 = n := Nat.div_add_mod n 10
        generalize hq : n / 10 = q at *
        generalize hr : n % 10 = r at *
        have hpow : (10:ℕ) ^ (k+1) = 10 ^ k * 10 := by ring
        rw [hpow]
        generalize hm : (10:ℕ) ^ k = m at *
        have h1 : a * (m * 10) = a * m * 10 := by ring
        rw [h1]
        omega

theorem decVal_natToDec (n : Nat) : decVal (natToDec n) = n := by
  obtain ⟨k, hk⟩ := foldl_natToDecCore n n [] 0 (by
    calc n < 10 ^ n := Nat.lt_pow_self (by norm_num) n
    _ ≤ 10 ^ (n+1) := Nat.pow_le_pow_right (by norm_num) (Nat.le_succ n))
  simpa [natToDec, decVal] using hk

theorem natToDec_inj : Function.Injective natToDec := by
  intro m n h
  have hm := decVal_natToDec m
  rw [h, decVal_natToDec] at hm
  exact hm.symm

theorem data_mk (l : List Char) : (String.mk l).data = l := rfl

theorem generate_service_id_inj_time (name : String) (t1 t2 : Nat)
    (h : generate_service_id name t1 = generate_service_id name t2) : t1 = t2 := by
  unfold generate_service_id natStr at h
  have hdata := congrArg String.data h
  simp only [String.data_append, data_mk, List.append_assoc] at hdata
  exact natToDec_inj (List.append_cancel_left (List.append_cancel_left hdata))

theorem hasKey_setKey (d : RepoDict) (k : String) (v : RepoEntry) :
    hasKey (setKey d k v) k = true := by
  unfold setKey
  by_cases h : hasKey d k
  · simp only [h, if_true]
    unfold hasKey at h ⊢
    rw [List.any_eq_true] at h ⊢
    obtain ⟨p, hp, hpk⟩ := h
    refine ⟨(k, v), List.mem_map.mpr ⟨p, hp, ?_⟩, by simp⟩
    simp only [decide_eq_true_eq] at hpk
    simp [hpk]
  · simp only [h, if_false]
    unfold hasKey
    rw [List.any_eq_true]
    exact ⟨(k, v), List.mem_append_right _ (by simp), by simp⟩

theorem lookupKey_setKey (d : RepoDict) (k : String) (v : RepoEntry) :
    lookupKey (setKey d k v) k = some v := by
  unfold setKey
  by_cases h : hasKey d k
  · simp only [h, if_true]
    unfold hasKey at h
    unfold lookupKey
    induction d with
    | nil => simp at h
    | cons p rest ih =>
        by_cases hpk : p.1 = k
        · simp [List.find?, hpk]
        · have hrest : rest.any (fun p => decide (p.1 = k)) = true := by
            rw [List.any_eq_true] at h ⊢
            obtain ⟨q, hq, hqk⟩ := h
            rcases List.mem_cons.mp hq with rfl | hq2
            · simp only [decide_eq_true_eq] at hqk
              exact absurd hqk hpk
            · exact ⟨q, hq2, hqk⟩
          simpa [List.find?, hpk] using ih hrest
  · simp only [h, if_false]
    unfold lookupKey
    unfold hasKey at h
    induction d with
    | nil => simp [List.find?]
    | cons p rest ih =>
        have hpk : ¬ p.1 = k := by
          intro hc
          apply h
          rw [List.any_eq_true]
          exact ⟨p, List.mem_cons_self _ _, by simp [hc]⟩
        have hrest : ¬ rest.any (fun p => decide (p.1 = k)) = true := by
          intro hc
          apply h
          rw [List.any_eq_true] at hc ⊢
          obtain ⟨q, hq, hqk⟩ := hc
          exact ⟨q, List.mem_cons_of_mem _ hq, hqk⟩
        simpa [List.find?, hpk] using ih hrest

/-- Each end-of-iteration context is at most 10000 characters long:
the trim step caps at 8000, and an untrimmed context is at most 10000
by the guard. -/
theorem ctxStep_length_le (ctx : List Char) (cat res : String) :
    (ctxStep ctx cat res).length ≤ 10000 := by
  unfold ctxStep ctxTrim
  by_cases h : 10000 < (ctx ++ ctxSep cat ++ res.data).length
  · simp only [h, if_true, List.length_drop]
    omega
  · simp only [h, if_false]
    omega

theorem runContexts_bounded : ∀ (batches : List BatchStep) (ctx : List Char),
    ctx.length ≤ 10000 → ∀ c ∈ runContexts ctx batches, c.length ≤ 10000 := by
  intro batches
  induction batches with
  | nil => intro ctx hctx c hc; simp [runContexts] at hc
  | cons b rest ih =>
      intro ctx hctx c hc
      cases b with
      | skipped cat =>
          rw [runContexts] at hc
          rcases List.mem_cons.mp hc with rfl | hc2
          · exact hctx
          · exact ih ctx hctx c hc2
      | analyzed cat desc res =>
          rw [runContexts] at hc
          rcases List.mem_cons.mp hc with rfl | hc2
          · exact ctxStep_length_le ctx cat res
          · exact ih (ctxStep ctx cat res) (ctxStep_length_le ctx cat res) c hc2
      | raised cat msg =>
          simp [runContexts] at hc

/-! ## Claims -/

/-- C1: for every filesystem condition (missing service file, malformed
JSON, missing or undersized artifact — all expressible as a `StateFS`),
every repository URL and every service name, `get_repository_state`
returns normally (it is a total function here because every phase of the
source catches its own exceptions and the top level catches the rest)
and its value is one of the four enumerated states. -/
theorem get_repository_state_total (fs : StateFS) (repo_url service_name : String) :
    get_repository_state fs repo_url service_name = RepositoryState.NEEDS_ASSIGNMENT ∨
    get_repository_state fs repo_url service_name = RepositoryState.NEEDS_ENRICHMENT ∨
    get_repository_state fs repo_url service_name = RepositoryState.READY_FOR_CHAT ∨
    get_repository_state fs repo_url service_name = RepositoryState.CORRUPTED := by
  cases h : get_repository_state fs repo_url service_name
  · exact Or.inl rfl
  · exact Or.inr (Or.inl rfl)
  · exact Or.inr (Or.inr (Or.inl rfl))
  · exact Or.inr (Or.inr (Or.inr rfl))

/-- C9: in a progressive run the accumulated context is at most 10000
characters at the end of every completed batch iteration (after the
trim), and whenever the freshly appended context exceeds 10000
characters the trim replaces it by exactly its most recent 8000
characters before the next batch call sees it. -/
theorem progressive_context_bounded :
    (∀ (batches : List BatchStep), ∀ c ∈ runContexts [] batches, c.length ≤ 10000) ∧
    (∀ (ctx : List Char) (cat res : String),
      10000 < (ctx ++ ctxSep cat ++ res.data).length →
      ctxStep ctx cat res =
        (ctx ++ ctxSep cat ++ res.data).drop ((ctx ++ ctxSep cat ++ res.data).length - 8000) ∧
      (ctxStep ctx cat res).length = 8000) := by
  constructor
  · intro batches c hc
    exact runContexts_bounded batches [] (by simp) c hc
  · intro ctx cat res h
    constructor
    · unfold ctxStep ctxTrim
      rw [if_pos h]
    · unfold ctxStep ctxTrim
      rw [if_pos h]
      rw [List.length_drop]
      omega

/-- Witness for `progressive_context_bounded` at concrete inputs: a
two-batch run whose contexts are all within bound, and an overflowing
concrete append that the trim cuts to exactly 8000 characters. -/
theorem progressive_context_bounded_witness :
    (∀ c ∈ runContexts [] [BatchStep.analyzed "Core" "d" "uses http api",
                           BatchStep.skipped "Docs"], c.length ≤ 10000) ∧
    (ctxStep (List.replicate 9990 'a') "B" "cccccccccccccccccccc").length = 8000 := by
  constructor
  · exact progressive_context_bounded.1 _
  · refine (progressive_context_bounded.2 (List.replicate 9990 'a') "B"
      "cccccccccccccccccccc" ?_).2
    have hsep : (ctxSep "B").length = 21 := by decide
    have hres : ("cccccccccccccccccccc".data).length = 20 := by decide
    rw [List.length_append, List.length_append, List.length_replicate, hsep, hres]
    norm_num

theorem baml_failed_msg_ne_empty (msg : String) : "BAML analysis failed: " ++ msg ≠ "" := by
  intro h
  have hdata := congrArg String.data h
  rw [String.data_append] at hdata
  exact absurd (List.append_eq_nil.mp hdata).1 (by decide)

/-- A fresh service document with no repositories, used as a concrete
starting state. -/
def emptyDoc : ServiceDoc :=
  { id := "svc-1", name := "Sales", description := "", owner := "",
    created_at := "2024-01-01T00:00:00", last_updated := "2024-01-01T00:00:00",
    repositories := [], repository_count := 0 }

/-- C8: when the external analyzer raises during standard analysis of an
assignment, `assign_repo_to_service` returns `true` and the persisted
entry for the repository is the degraded fallback entry: `role` is
`UNKNOWN`, `enriched` is `false`, and the `reasoning` field carries a
non-empty error text. -/
theorem assign_analyzer_raises_fallback (env : AssignEnv)
    (service_id repo_url p msg : String) (doc : ServiceDoc)
    (hsid : service_id ≠ "") (hurl : repo_url ≠ "")
    (hnew : hasKey doc.repositories repo_url = false)
    (hstrat : env.strategy ≠ "progressive")
    (hpath : env.repo_path = some p)
    (hfail : env.analyze = Except.error msg) :
    (assign_repo_to_service env service_id repo_url (some (ServiceRead.ok doc))).1 = true ∧
    ((assign_repo_to_service env service_id repo_url (some (ServiceRead.ok doc))).2.bind
        (fun d => lookupKey d.repositories repo_url))
      = some (stdFailEntry repo_url p msg env.nowIso) ∧
    (stdFailEntry repo_url p msg env.nowIso).role = some "UNKNOWN" ∧
    (stdFailEntry repo_url p msg env.nowIso).enriched = some false ∧
    (stdFailEntry repo_url p msg env.nowIso).reasoning
      = some ("BAML analysis failed: " ++ msg) ∧
    "BAML analysis failed: " ++ msg ≠ "" := by
  have hassign : assign_repo_to_service env service_id repo_url
      (some (ServiceRead.ok doc))
      = (true, (analyze_repository_with_baml env repo_url doc).2) := by
    unfold assign_repo_to_service
    simp [hsid, hurl, hnew, hstrat]
  have hstd : analyze_repository_with_baml env repo_url doc
      = (false, some { doc with
          repositories := setKey doc.repositories repo_url
            (stdFailEntry repo_url p msg env.nowIso),
          repository_count := dictLen (setKey doc.repositories repo_url
            (stdFailEntry repo_url p msg env.nowIso)),
          last_updated := env.nowIso }) := by
    unfold analyze_repository_with_baml
    rw [hpath, hfail]
  refine ⟨by rw [hassign], ?_, rfl, rfl, rfl, baml_failed_msg_ne_empty msg⟩
  rw [hassign, hstd]
  simp only [Option.bind_some]
  exact lookupKey_setKey _ _ _

/-- Witness for `assign_analyzer_raises_fallback`: a concrete raising
analyzer on a fresh document. -/
theorem assign_analyzer_raises_fallback_witness :
    (assign_repo_to_service
        { repo_path := some "/repos/acme_billing", strategy := "standard",
          analyze := Except.error "boom", plan := Except.error "unused", nowIso := "t1" }
        "svc-1" "https://github.com/acme/billing"
        (some (ServiceRead.ok emptyDoc))).1 = true ∧
    ((assign_repo_to_service
        { repo_path := some "/repos/acme_billing", strategy := "standard",
          analyze := Except.error "boom", plan := Except.error "unused", nowIso := "t1" }
        "svc-1" "https://github.com/acme/billing"
        (some (ServiceRead.ok emptyDoc))).2.bind
        (fun d => lookupKey d.repositories "https://github.com/acme/billing"))
      = some (stdFailEntry "https://github.com/acme/billing" "/repos/acme_billing" "boom" "t1") ∧
    (stdFailEntry "https://github.com/acme/billing" "/repos/acme_billing" "boom" "t1").role
      = some "UNKNOWN" ∧
    (stdFailEntry "https://github.com/acme/billing" "/repos/acme_billing" "boom" "t1").enriched
      = some false ∧
    (stdFailEntry "https://github.com/acme/billing" "/repos/acme_billing" "boom" "t1").reasoning
      = some ("BAML analysis failed: " ++ "boom") ∧
    "BAML analysis failed: " ++ "boom" ≠ "" :=
  assign_analyzer_raises_fallback
    { repo_path := some "/repos/acme_billing", strategy := "standard",
      analyze := Except.error "boom", plan := Except.error "unused", nowIso := "t1" }
    "svc-1" "https://github.com/acme/billing" "/repos/acme_billing" "boom" emptyDoc
    (by decide) (by decide) (by decide) (by decide) rfl rfl

/-- C2 evaluated at the failing input: the repository's local path does
not resolve, so `_analyze_repository_with_baml` returns `False` without
writing anything, yet `assign_repo_to_service` still returns `True`
(second component `none` = no document was written), and the document
holds no entry for the repository. -/
theorem assign_true_without_stored_entry :
    assign_repo_to_service
      { repo_path := none, strategy := "standard",
        analyze := Except.ok none, plan := Except.error "unused", nowIso := "t1" }
      "svc-1" "https://github.com/acme/billing" (some (ServiceRead.ok emptyDoc))
      = (true, none) ∧
    hasKey emptyDoc.repositories "https://github.com/acme/billing" = false := by
  decide

/-- C3 evaluated at the failing input: a progressive-analysis store adds
an entry to `repositories` but leaves `repository_count` untouched, so
the persisted document has `repository_count = 0` while the mapping has
one key. -/
theorem progressive_store_count_mismatch :
    ((assign_repo_to_service
        { repo_path := some "/repos/acme_app", strategy := "progressive",
          analyze := Except.error "unused",
          plan := Except.ok { priority_batches :=
                                [BatchStep.analyzed "Core" "core files" "uses http api"],
                              repository_type := "PYTHON",
                              analysis_strategy := "progressive_deep_dive" },
          nowIso := "t1" }
        "svc-1" "https://github.com/acme/app"
        (some (ServiceRead.ok emptyDoc))).2.map
      (fun d => (d.repository_count, dictLen d.repositories))) = some (0, 1) := by
  decide

/-- A progressive-style stored entry: neither `enriched` nor
`analysis_timestamp` is present. -/
def progStyleEntry : RepoEntry :=
  { url := "https://github.com/acme/app", analysis_type := some "progressive_baml" }

/-- A service document holding `progStyleEntry`. -/
def c4Doc : ServiceDoc :=
  { emptyDoc with
      repositories := [("https://github.com/acme/app", progStyleEntry)],
      repository_count := 1 }

/-- A state-manager filesystem whose only service file is `c4Doc`. -/
def c4FS : StateFS :=
  { servicesDir := [("Sales-1.json", ServiceRead.ok c4Doc)], faissSize := none }

/-- C4 counterexample: `mark_enrichment_complete` on an entry without
`analysis_timestamp` (as the progressive store writes them) succeeds and
leaves the entry with `enriched = true` and `analysis_timestamp` still
absent — the claimed invariant is violated by this operation. -/
theorem mark_enrichment_breaks_invariant :
    (mark_enrichment_complete c4FS "https://github.com/acme/app" "Sales"
        "2024-02-02T00:00:00").1 = true ∧
    ((mark_enrichment_complete c4FS "https://github.com/acme/app" "Sales"
        "2024-02-02T00:00:00").2.bind
      (fun d => lookupKey d.repositories "https://github.com/acme/app")).map
      (fun e => (e.enriched, e.analysis_timestamp)) = some (some true, none) := by
  decide

/-- C4 amended: the standard store (fully-analyzed and degraded
fallback) and the progressive stores (success and failure) preserve
`enriched = true → analysis_timestamp set` on the entry they write;
`mark_enrichment_complete` sets `enriched = true` without touching
`analysis_timestamp`, so it preserves the invariant exactly on entries
whose `analysis_timestamp` was already set. -/
theorem entry_writes_enrichment_invariant :
    (∀ (env : AssignEnv) (url : String) (doc d : ServiceDoc) (e : RepoEntry),
      (analyze_repository_with_baml env url doc).2 = some d →
      lookupKey d.repositories url = some e →
      e.enriched = some true → e.analysis_timestamp ≠ none) ∧
    (∀ (env : AssignEnv) (url : String) (doc d : ServiceDoc) (e : RepoEntry),
      (analyze_large_repository_with_progressive_baml env url doc).2 = some d →
      lookupKey d.repositories (get_repo_key url) = some e →
      e.enriched = some true → e.analysis_timestamp ≠ none) ∧
    (∀ (fs : StateFS) (url sname iso : String) (doc0 : ServiceDoc) (e0 : RepoEntry)
        (d2 : ServiceDoc) (e2 : RepoEntry),
      find_service_file fs sname = some (ServiceRead.ok doc0) →
      lookupKey doc0.repositories url = some e0 →
      e0.analysis_timestamp ≠ none →
      (mark_enrichment_complete fs url sname iso).2 = some d2 →
      lookupKey d2.repositories url = some e2 →
      e2.enriched = some true → e2.analysis_timestamp ≠ none) := by
  refine ⟨?_, ?_, ?_⟩
  · intro env url doc d e h1 h2 htrue
    cases hp : env.repo_path with
    | none => simp [analyze_repository_with_baml, hp] at h1
    | some p =>
        cases ha : env.analyze with
        | error msg =>
            simp only [analyze_repository_with_baml, hp, ha] at h1
            rw [Option.some.injEq] at h1
            subst h1
            simp only [lookupKey_setKey, Option.some.injEq] at h2
            subst h2
            simp [stdFailEntry] at htrue
        | ok o =>
            cases o with
            | none => simp [analyze_repository_with_baml, hp, ha] at h1
            | some resp =>
                simp only [analyze_repository_with_baml, hp, ha] at h1
                rw [Option.some.injEq] at h1
                subst h1
                simp only [lookupKey_setKey, Option.some.injEq] at h2
                subst h2
                simp [stdOkEntry]
  · intro env url doc d e h1 h2 htrue
    cases hp : env.repo_path with
    | none => simp [analyze_large_repository_with_progressive_baml, hp] at h1
    | some p =>
        cases hplan : env.plan with
        | error msg =>
            simp only [analyze_large_repository_with_progressive_baml, hp, hplan] at h1
            rw [Option.some.injEq] at h1
            subst h1
            simp only [lookupKey_setKey, Option.some.injEq] at h2
            subst h2
            simp [progFailEntry] at htrue
        | ok plan =>
            cases hrun : runBatches [] plan.priority_batches with
            | error msg =>
                simp only [analyze_large_repository_with_progressive_baml, hp, hplan,
                  hrun] at h1
                rw [Option.some.injEq] at h1
                subst h1
                simp only [lookupKey_setKey, Option.some.injEq] at h2
                subst h2
                simp [progFailEntry] at htrue
            | ok brs =>
                simp only [analyze_large_repository_with_progressive_baml, hp, hplan,
                  hrun] at h1
                rw [Option.some.injEq] at h1
                subst h1
                simp only [lookupKey_setKey, Option.some.injEq] at h2
                subst h2
                simp [synthesizeEntry] at htrue
  · intro fs url sname iso doc0 e0 d2 e2 hfind hlook hts hmark hlook2 _
    simp only [mark_enrichment_complete, hfind, hlook] at hmark
    rw [Option.some.injEq] at hmark
    subst hmark
    simp only [lookupKey_setKey, Option.some.injEq] at hlook2
    subst hlook2
    simpa using hts

/-- A placeholder repository entry used only to extract optional
values. -/
def anyEntry : RepoEntry := { url := "" }

/-- An entry that carries an `analysis_timestamp`, and a service
document / filesystem holding it, for the enrichment-invariant
witness. -/
def c4bEntry : RepoEntry :=
  { url := "https://github.com/acme/app",
    analysis_timestamp := some "2024-01-05T00:00:00" }

/-- Service document holding `c4bEntry`. -/
def c4bDoc : ServiceDoc :=
  { emptyDoc with
      repositories := [("https://github.com/acme/app", c4bEntry)],
      repository_count := 1 }

/-- State-manager filesystem whose only service file is `c4bDoc`. -/
def c4bFS : StateFS :=
  { servicesDir := [("Sales-1.json", ServiceRead.ok c4bDoc)], faissSize := none }

/-- Witness for `entry_writes_enrichment_invariant`: marking enrichment
complete on a concrete entry that does carry `analysis_timestamp`
preserves the invariant. -/
theorem entry_writes_enrichment_invariant_witness :
    ((lookupKey ((mark_enrichment_complete c4bFS "https://github.com/acme/app"
      "Sales" "t2").2.getD emptyDoc).repositories
      "https://github.com/acme/app").getD anyEntry).analysis_timestamp ≠ none :=
  entry_writes_enrichment_invariant.2.2 c4bFS "https://github.com/acme/app" "Sales"
    "t2" c4bDoc c4bEntry
    ((mark_enrichment_complete c4bFS "https://github.com/acme/app" "Sales" "t2").2.getD
      emptyDoc)
    ((lookupKey ((mark_enrichment_complete c4bFS "https://github.com/acme/app"
      "Sales" "t2").2.getD emptyDoc).repositories
      "https://github.com/acme/app").getD anyEntry)
    (by decide) (by decide) (by decide) (by decide) (by decide) (by decide)

/-- C5 counterexample: the spec formula (strip one trailing slash and a
trailing `.git` suffix, nothing else) disagrees with the code.  The
storage key `_get_repo_key` uses Python `rstrip('.git')`, a character
*set* strip, so it eats the trailing `tiggg…` run of
`…/taggit`; the comparison normalization `replace('.git','')` deletes
an interior `.git` in `…/app.github.io`. -/
theorem repo_key_not_spec_key :
    get_repo_key "https://github.com/acme/taggit"
      ≠ specRepoKey "https://github.com/acme/taggit" ∧
    get_repo_key "https://github.com/acme/taggit" = "https://github.com/acme/ta" ∧
    normalize_for_find "https://github.com/acme/app.github.io"
      ≠ specRepoKey "https://github.com/acme/app.github.io" ∧
    normalize_for_find "https://github.com/acme/app.github.io"
      = "https://github.com/acme/apphub.io" := by
  decide

/-- C5 amended: the storage key removes trailing slashes and then every
trailing character drawn from the set `{'.', 'g', 'i', 't'}`; on a URL
ending in `.git` whose stem ends in a character outside that set (and
not a slash) this coincides with removing exactly the `.git` suffix. -/
theorem repo_key_strips_exact_git_suffix (u : String) (c : Char)
    (hlast : u.data.getLast? = some c)
    (hc : c ∉ (['.', 'g', 'i', 't', '/'] : List Char)) :
    get_repo_key (u ++ ".git") = u := by
  obtain ⟨tail, htail⟩ : ∃ tail, u.data.reverse = c :: tail := by
    have h1 : u.data.reverse.head? = some c := by
      rw [List.head?_reverse]; exact hlast
    cases hrev : u.data.reverse with
    | nil => rw [hrev] at h1; exact absurd h1 (by simp)
    | cons a t =>
        rw [hrev] at h1
        simp only [List.head?_cons, Option.some.injEq] at h1
        exact ⟨t, by rw [h1]⟩
  have hcdot : c ∉ (['.', 'g', 'i', 't'] : List Char) := by
    intro hmem
    apply hc
    simp only [List.mem_cons, List.not_mem_nil, or_false] at hmem ⊢
    tauto
  have hrev4 : (u ++ ".git").data.reverse = 't' :: 'i' :: 'g' :: '.' :: c :: tail := by
    rw [String.data_append, List.reverse_append, htail]
    rfl
  have hstop1 : List.dropWhile (fun x => decide (x ∈ (['/'] : List Char)))
      ('t' :: 'i' :: 'g' :: '.' :: c :: tail)
      = 't' :: 'i' :: 'g' :: '.' :: c :: tail := by
    rw [List.dropWhile_cons, if_neg (by decide)]
  have hstop2 : List.dropWhile (fun x => decide (x ∈ (['.', 'g', 'i', 't'] : List Char)))
      ('t' :: 'i' :: 'g' :: '.' :: c :: tail) = c :: tail := by
    rw [List.dropWhile_cons, if_pos (by decide), List.dropWhile_cons, if_pos (by decide),
      List.dropWhile_cons, if_pos (by decide), List.dropWhile_cons, if_pos (by decide),
      List.dropWhile_cons, if_neg (by simpa using hcdot)]
  have hud : (c :: tail).reverse = u.data := by
    have h5 := congrArg List.reverse htail
    rw [List.reverse_reverse] at h5
    exact h5.symm
  unfold get_repo_key pyRstrip
  simp only [data_mk, List.reverse_reverse]
  rw [hrev4, hstop1, hstop2, hud]

/-- Witness for `repo_key_strips_exact_git_suffix` on a concrete URL. -/
theorem repo_key_strips_exact_git_suffix_witness :
    get_repo_key ("https://github.com/acme/app" ++ ".git")
      = "https://github.com/acme/app" :=
  repo_key_strips_exact_git_suffix "https://github.com/acme/app" 'p'
    (by decide) (by decide)

theorem dedupByType_spec : ∀ (l : List ProtocolEntry) (seen : List String),
    (∀ p ∈ dedupByType l seen, p.protocol_type ∉ seen ∧
      l.find? (fun q => q.protocol_type = p.protocol_type) = some p) ∧
    ((dedupByType l seen).map (fun p => p.protocol_type)).Nodup := by
  intro l
  induction l with
  | nil =>
      intro seen
      refine ⟨?_, by simp [dedupByType]⟩
      intro p hp
      simp [dedupByType] at hp
  | cons q rest ih =>
      intro seen
      by_cases hq : q.protocol_type ∈ seen
      · simp only [dedupByType, if_pos hq]
        refine ⟨?_, (ih seen).2⟩
        intro p hp
        obtain ⟨hns, hfind⟩ := (ih seen).1 p hp
        refine ⟨hns, ?_⟩
        have hne : ¬ (q.protocol_type = p.protocol_type) := by
          intro hcontra
          exact hns (hcontra ▸ hq)
        rw [List.find?_cons_of_neg _ (by simpa using hne)]
        exact hfind
      · simp only [dedupByType, if_neg hq]
        obtain ⟨ihmem, ihnodup⟩ := ih (q.protocol_type :: seen)
        constructor
        · intro p hp
          rcases List.mem_cons.mp hp with rfl | hp2
          · exact ⟨hq, List.find?_cons_of_pos _ (by simp)⟩
          · obtain ⟨hns, hfind⟩ := ihmem p hp2
            have hne : ¬ (q.protocol_type = p.protocol_type) := by
              intro hcontra
              exact hns (by rw [← hcontra]; exact List.mem_cons_self _ _)
            have hnseen : p.protocol_type ∉ seen :=
              fun hx => hns (List.mem_cons_of_mem _ hx)
            refine ⟨hnseen, ?_⟩
            rw [List.find?_cons_of_neg _ (by simpa using hne)]
            exact hfind
        · rw [List.map_cons]
          refine List.nodup_cons.mpr ⟨?_, ihnodup⟩
          intro hmem
          rw [List.mem_map] at hmem
          obtain ⟨p, hp, hpt⟩ := hmem
          exact (ihmem p hp).1 (by rw [hpt]; exact List.mem_cons_self _ _)

/-- A `BamlResponse` whose protocol list repeats a `protocol_type`. -/
def dupResp : BamlResponse :=
  { role := "BACKEND_SERVICE",
    tech_stack := { primary_stack := "PYTHON", confidence := "high", reasoning := "r" },
    communication_protocols :=
      [{ protocol_type := "HTTP/HTTPS", configuration_details := "a" },
       { protocol_type := "HTTP/HTTPS", configuration_details := "b" }],
    deployment_patterns := [], confidence := "high", reasoning := "r" }

/-- C6 counterexample: the standard single-pass store copies the
analyzer's protocol list verbatim, so a response with two entries of the
same `protocol_type` is stored with the duplicate intact — the stored
sequence does not have at most one entry per distinct type. -/
theorem standard_store_keeps_duplicate_protocols :
    ((analyze_repository_with_baml
        { repo_path := some "/repos/acme_app", strategy := "standard",
          analyze := Except.ok (some dupResp), plan := Except.error "unused",
          nowIso := "t1" }
        "https://github.com/acme/app" emptyDoc).2.bind
      (fun d => lookupKey d.repositories "https://github.com/acme/app")).map
      (fun e => e.communication_protocols.map (fun p => p.protocol_type))
      = some ["HTTP/HTTPS", "HTTP/HTTPS"] ∧
    ¬ (["HTTP/HTTPS", "HTTP/HTTPS"] : List String).Nodup := by
  decide

/-- C6 amended: the progressive extraction deduplicates by
`protocol_type` and keeps, for each surviving type, exactly the first
raw occurrence (hence its `configuration_details`); the standard path
stores the analyzer's `communication_protocols` verbatim, with no
deduplication of its own. -/
theorem protocol_dedup_amended :
    (∀ brs, ((extract_protocols_from_batches brs).map (fun p => p.protocol_type)).Nodup) ∧
    (∀ brs p, p ∈ extract_protocols_from_batches brs →
      (rawProtocols brs).find? (fun q => q.protocol_type = p.protocol_type) = some p) ∧
    (∀ (env : AssignEnv) (url path : String) (doc : ServiceDoc) (resp : BamlResponse),
      env.repo_path = some path → env.analyze = Except.ok (some resp) →
      ((analyze_repository_with_baml env url doc).2.bind
        (fun d => lookupKey d.repositories url)).map (fun e => e.communication_protocols)
        = some resp.communication_protocols) := by
  refine ⟨?_, ?_, ?_⟩
  · intro brs
    exact (dedupByType_spec (rawProtocols brs) []).2
  · intro brs p hp
    exact ((dedupByType_spec (rawProtocols brs) []).1 p hp).2
  · intro env url path doc resp hp ha
    simp [analyze_repository_with_baml, hp, ha, lookupKey_setKey, stdOkEntry]

/-- A placeholder protocol entry used only to extract list heads. -/
def anyProtocol : ProtocolEntry := { protocol_type := "", configuration_details := "" }

/-- Concrete batch results for the dedup witness. -/
def brsC : List (String × String) :=
  [("Core", "uses http api"), ("Net", "websocket and http endpoints")]

/-- Witness for `protocol_dedup_amended`: on concrete batch results the
surviving head entry is the first raw occurrence of its type, and a
concrete standard store passes the response protocols through. -/
theorem protocol_dedup_amended_witness :
    (rawProtocols brsC).find? (fun q => q.protocol_type =
      ((extract_protocols_from_batches brsC).headD anyProtocol).protocol_type)
      = some ((extract_protocols_from_batches brsC).headD anyProtocol) ∧
    ((analyze_repository_with_baml
        { repo_path := some "/repos/acme_app", strategy := "standard",
          analyze := Except.ok (some dupResp), plan := Except.error "unused",
          nowIso := "t1" }
        "https://github.com/acme/app" emptyDoc).2.bind
      (fun d => lookupKey d.repositories "https://github.com/acme/app")).map
      (fun e => e.communication_protocols) = some dupResp.communication_protocols :=
  ⟨protocol_dedup_amended.2.1 brsC _ (by decide),
   protocol_dedup_amended.2.2
     { repo_path := some "/repos/acme_app", strategy := "standard",
       analyze := Except.ok (some dupResp), plan := Except.error "unused",
       nowIso := "t1" }
     "https://github.com/acme/app" "/repos/acme_app" emptyDoc dupResp rfl rfl⟩

/-- First-call environment: progressive strategy, one batch. -/
def e7a : AssignEnv :=
  { repo_path := some "/repos/a_b", strategy := "progressive",
    analyze := Except.error "unused",
    plan := Except.ok
      { priority_batches := [BatchStep.analyzed "Core" "core" "uses http api"],
        repository_type := "PYTHON", analysis_strategy := "s1" },
    nowIso := "t1" }

/-- Second-call environment: progressive strategy again, but (the
analyzer being nondeterministic) a two-batch plan this time. -/
def e7b : AssignEnv :=
  { repo_path := some "/repos/a_b", strategy := "progressive",
    analyze := Except.error "unused",
    plan := Except.ok
      { priority_batches := [BatchStep.analyzed "Core" "core" "uses http api",
                             BatchStep.analyzed "Net" "net" "uses websocket"],
        repository_type := "PYTHON", analysis_strategy := "s1" },
    nowIso := "t2" }

/-- A URL whose progressive storage key differs from the raw URL. -/
def url7 : String := "https://github.com/a/b.git"

/-- Document state after the first assignment of `url7`. -/
def doc7 : ServiceDoc :=
  (assign_repo_to_service e7a "svc-1" url7 (some (ServiceRead.ok emptyDoc))).2.getD emptyDoc

/-- C7 counterexample: the first (progressive) call stores the entry
under the normalized key, which differs from `url7`, so the second call
misses the already-present check, re-runs the analysis, both calls
return success, and the stored entry is changed by the second call. -/
theorem assign_not_idempotent_progressive_key :
    (assign_repo_to_service e7a "svc-1" url7 (some (ServiceRead.ok emptyDoc))).1 = true ∧
    (assign_repo_to_service e7b "svc-1" url7 (some (ServiceRead.ok doc7))).1 = true ∧
    (lookupKey doc7.repositories (get_repo_key url7)).isSome = true ∧
    ((assign_repo_to_service e7b "svc-1" url7 (some (ServiceRead.ok doc7))).2.bind
      (fun d => lookupKey d.repositories (get_repo_key url7)))
      ≠ lookupKey doc7.repositories (get_repo_key url7) := by
  decide

/-- C7 amended: when the first call stores the entry under the raw
`repo_url` key — which the standard (non-progressive) path always does —
the second call with the same `(service_id, repo_url)` short-circuits on
the already-present check: it returns `true`, writes nothing and runs no
analysis; the first call also returns `true`. -/
theorem assign_idempotent_on_standard_key (env1 env2 : AssignEnv) (sid url : String)
    (doc d1 : ServiceDoc)
    (hsid : sid ≠ "") (hurl : url ≠ "")
    (hstrat : env1.strategy ≠ "progressive")
    (hw : (assign_repo_to_service env1 sid url (some (ServiceRead.ok doc))).2 = some d1) :
    (assign_repo_to_service env1 sid url (some (ServiceRead.ok doc))).1 = true ∧
    assign_repo_to_service env2 sid url (some (ServiceRead.ok d1)) = (true, none) := by
  by_cases hk : hasKey doc.repositories url
  · simp [assign_repo_to_service, hsid, hurl, hk] at hw
  · have hassign : assign_repo_to_service env1 sid url (some (ServiceRead.ok doc))
        = (true, (analyze_repository_with_baml env1 url doc).2) := by
      unfold assign_repo_to_service
      simp [hsid, hurl, hk, hstrat]
    rw [hassign] at hw
    have hkey : hasKey d1.repositories url = true := by
      cases hp : env1.repo_path with
      | none => simp [analyze_repository_with_baml, hp] at hw
      | some p =>
          cases ha : env1.analyze with
          | error msg =>
              simp only [analyze_repository_with_baml, hp, ha] at hw
              rw [Option.some.injEq] at hw
              subst hw
              exact hasKey_setKey _ _ _
          | ok o =>
              cases o with
              | none => simp [analyze_repository_with_baml, hp, ha] at hw
              | some resp =>
                  simp only [analyze_repository_with_baml, hp, ha] at hw
                  rw [Option.some.injEq] at hw
                  subst hw
                  exact hasKey_setKey _ _ _
    refine ⟨by rw [hassign], ?_⟩
    unfold assign_repo_to_service
    simp [hsid, hurl, hkey]

/-- Standard-strategy environment for the idempotence witness. -/
def e7c : AssignEnv :=
  { repo_path := some "/repos/a_b", strategy := "standard",
    analyze := Except.ok (some dupResp), plan := Except.error "unused",
    nowIso := "t1" }

/-- Witness for `assign_idempotent_on_standard_key`: after a concrete
standard-path first call, the second call is a no-op success. -/
theorem assign_idempotent_on_standard_key_witness :
    (assign_repo_to_service e7c "svc-1" "https://github.com/a/b"
      (some (ServiceRead.ok emptyDoc))).1 = true ∧
    assign_repo_to_service e7b "svc-1" "https://github.com/a/b"
      (some (ServiceRead.ok
        ((assign_repo_to_service e7c "svc-1" "https://github.com/a/b"
          (some (ServiceRead.ok emptyDoc))).2.getD emptyDoc))) = (true, none) :=
  assign_idempotent_on_standard_key e7c e7b "svc-1" "https://github.com/a/b"
    emptyDoc
    ((assign_repo_to_service e7c "svc-1" "https://github.com/a/b"
      (some (ServiceRead.ok emptyDoc))).2.getD emptyDoc)
    (by decide) (by decide) (by decide) (by decide)

/-- C10 counterexample: two `create_service` calls with the same name
inside the same second (`int(time.time())` equal) generate the same id,
so the first succeeds and the second hits the collision check and fails —
the claim's "regardless of how close together in time" is false. -/
theorem create_service_same_second_conflict :
    (create_service [] "sales" "" "" 1700000000 "i1").toOption.isSome = true ∧
    (create_service
        (((create_service [] "sales" "" "" 1700000000 "i1").toOption.map
          (fun p => p.1 ++ ".json")).toList)
        "sales" "" "" 1700000000 "i2").toOption = none := by
  decide

/-- C10 amended: two successive `create_service` calls with the same
non-empty trimmed name both succeed with distinct ids provided the
integer timestamps of the two calls differ (and neither generated id is
already taken); with equal timestamps the ids collide and the second
call fails, as the counterexample shows. -/
theorem create_service_distinct_times (files : List String)
    (name desc owner iso1 iso2 : String) (t1 t2 : Nat)
    (hname : ¬ pyStrip name = "")
    (ht : t1 ≠ t2)
    (h1 : service_exists files (generate_service_id name t1) = false)
    (h2 : service_exists (files ++ [generate_service_id name t1 ++ ".json"])
            (generate_service_id name t2) = false) :
    (create_service files name desc owner t1 iso1).toOption.map Prod.fst
      = some (generate_service_id name t1) ∧
    (create_service (files ++ [generate_service_id name t1 ++ ".json"])
        name desc owner t2 iso2).toOption.map Prod.fst
      = some (generate_service_id name t2) ∧
    generate_service_id name t1 ≠ generate_service_id name t2 := by
  refine ⟨?_, ?_, fun h => ht (generate_service_id_inj_time name t1 t2 h)⟩
  · unfold create_service
    rw [if_neg hname, if_neg (by simp [h1])]
    rfl
  · unfold create_service
    rw [if_neg hname, if_neg (by simp [h2])]
    rfl

/-- Witness for `create_service_distinct_times`: concrete name and two
distinct concrete timestamps. -/
theorem create_service_distinct_times_witness :
    (create_service [] "sales" "" "" 1700000000 "i1").toOption.map Prod.fst
      = some (generate_service_id "sales" 1700000000) ∧
    (create_service ([] ++ [generate_service_id "sales" 1700000000 ++ ".json"])
        "sales" "" "" 1700000001 "i2").toOption.map Prod.fst
      = some (generate_service_id "sales" 1700000001) ∧
    generate_service_id "sales" 1700000000 ≠ generate_service_id "sales" 1700000001 :=
  create_service_distinct_times [] "sales" "" "" "i1" "i2" 1700000000 1700000001
    (by decide) (by decide) (by decide) (by decide)

end AristOps
